import Mathlib

/-
Verification of the SmartObject reference-counting protocol of
EpOraLibrary (EpLibraryHeaders/epSmartObject.h).

The debug-build inline bodies in epSmartObject.h are the embedded code:
Retain (lines 95-100), Release (lines 106-126), the lock-policy
constructor (lines 133-153), the copy constructor (lines 159-179) and
the destructor (lines 184-200). Collaborator headers (epSystem.h,
epException.h, the lock classes) are not part of the sources, so the
enumeration of lock policies, the behavior of the error-signaling
macros and the assignment operator body are modelled from the spec,
each marked in its doc comment.

Modelling choices:
- the reference counter is an Int (the C++ member is a plain int and
  the protocol never approaches overflow ranges in its reasoning);
- a lock is a reference (kind plus allocation id) drawn from a heap
  that hands out fresh ids, so that lock sharing between objects is
  expressible; a NULL lock pointer is Option.none;
- dereferencing a NULL lock pointer, and running an operation on an
  already-destroyed object, are undefined behavior and yield
  Option.none at the level of the operation or run;
- each operation also returns the ordered list of observable events it
  performs (lock, unlock, error signal, delete of this, delete of the
  lock), so ordering claims such as unlock-before-destroy can be
  stated on the trace.
-/

namespace epl

/-- Modelled from the spec: the LockPolicy enumeration is declared in a
header that is not part of the sources. The spec requires exactly three
policy kinds (in-process exclusive section, OS-backed mutex, no-op);
the fourth constructor stands for an out-of-range enumeration value,
the case handled by the default branch of the constructor switches. -/
inductive LockPolicy where
  | LOCK_POLICY_CRITICALSECTION
  | LOCK_POLICY_MUTEX
  | LOCK_POLICY_NONE
  | LOCK_POLICY_UNRECOGNIZED
deriving DecidableEq

/-- The three concrete lock implementations allocated by the
constructor switches (CriticalSectionEx, Mutex, NoLock). Their headers
are not part of the sources; only which implementation gets allocated
is relevant to the claims. -/
inductive LockKind where
  | CriticalSectionEx
  | MutexLock
  | NoLock
deriving DecidableEq

/-- A reference to an allocated lock object: its kind and the heap id
it was allocated with. Distinct ids model distinct lock instances. -/
structure LockRef where
  kind : LockKind
  id : Nat
deriving DecidableEq

/-- The allocator state: the next fresh lock id. Every id already
handed out is smaller than nextLockId. -/
structure Heap where
  nextLockId : Nat
deriving DecidableEq

/-- Allocate a fresh lock of the given kind. -/
def allocLock (k : LockKind) (h : Heap) : LockRef × Heap :=
  (⟨k, h.nextLockId⟩, ⟨h.nextLockId + 1⟩)

/-- The SmartObject state: reference counter, lock pointer (none is
NULL) and the lock policy, mirroring the private members m_refCount,
m_refCounterLock and m_lockPolicy. -/
structure SmartObject where
  m_refCount : Int
  m_refCounterLock : Option LockRef
  m_lockPolicy : LockPolicy
deriving DecidableEq

/-- The two misuse errors of the protocol, each carrying the offending
counter value embedded in the error message by the source. -/
inductive Misuse where
  | NegativeReferenceCount (count : Int)
  | NonZeroCountAtDestruction (count : Int)
deriving DecidableEq

/-- Observable events of one operation, in program order: acquiring
the counter lock, releasing it, signaling a misuse error, the EP_DELETE
of this (start of destruction), and the EP_DELETE of the lock object. -/
inductive Event where
  | lockEv
  | unlockEv
  | signalEv (m : Misuse)
  | deleteThisEv
  | deleteLockEv
deriving DecidableEq

/-- The switch shared by both constructors (epSmartObject.h lines
138-152 and 164-178): allocate the lock implementation selected by the
policy; the default branch leaves the lock pointer NULL and allocates
nothing. -/
def lockForPolicy (p : LockPolicy) (h : Heap) : Option LockRef × Heap :=
  match p with
  | .LOCK_POLICY_CRITICALSECTION =>
      let (r, h2) := allocLock .CriticalSectionEx h
      (some r, h2)
  | .LOCK_POLICY_MUTEX =>
      let (r, h2) := allocLock .MutexLock h
      (some r, h2)
  | .LOCK_POLICY_NONE =>
      let (r, h2) := allocLock .NoLock h
      (some r, h2)
  | .LOCK_POLICY_UNRECOGNIZED => (none, h)

/-- SmartObject(LockPolicy), epSmartObject.h lines 133-153: set
m_refCount to 1, record the policy, allocate the lock per the switch.
Construction itself is total: it has no error path. -/
def construct (lockPolicyType : LockPolicy) (h : Heap) : SmartObject × Heap :=
  let (lk, h2) := lockForPolicy lockPolicyType h
  ({ m_refCount := 1, m_refCounterLock := lk, m_lockPolicy := lockPolicyType }, h2)

/-- SmartObject(const SmartObject&), epSmartObject.h lines 159-179: set
m_refCount to 1 (the count of the source is never read), copy
m_lockPolicy from the source, and allocate a fresh lock through the
same switch; the lock of the source is never read. -/
def copyConstruct (b : SmartObject) (h : Heap) : SmartObject × Heap :=
  let (lk, h2) := lockForPolicy b.m_lockPolicy h
  ({ m_refCount := 1, m_refCounterLock := lk, m_lockPolicy := b.m_lockPolicy }, h2)

/-- Result of running the destructor body: the misuse error it
signaled, if any, and its event trace. -/
structure DtorResult where
  err : Option Misuse
  events : List Event
deriving DecidableEq

/-- ~SmartObject, epSmartObject.h lines 184-200: Lock the counter lock
(undefined when the pointer is NULL), decrement m_refCount, signal
NonZeroCountAtDestruction carrying the decremented value when it is not
0, Unlock, then EP_DELETE the lock object. The signaling macro is from
a header outside the sources; per the spec it records the error and
control continues, so the Unlock and the delete of the lock follow. -/
def destructor (s : SmartObject) : Option DtorResult :=
  match s.m_refCounterLock with
  | none => none
  | some _ =>
      let c := s.m_refCount - 1
      if c = 0 then
        some ⟨none, [Event.lockEv, Event.unlockEv, Event.deleteLockEv]⟩
      else
        some ⟨some (Misuse.NonZeroCountAtDestruction c),
              [Event.lockEv, Event.signalEv (Misuse.NonZeroCountAtDestruction c),
               Event.unlockEv, Event.deleteLockEv]⟩

/-- Result of one Release call: the surviving object (none when the
call destroyed it), whether destruction was triggered, the error
signaled by Release itself, the error signaled by the destructor run
from EP_DELETE this, and the full event trace of the call (the
destructor trace inlined after deleteThisEv). -/
structure ReleaseResult where
  obj : Option SmartObject
  destroyed : Bool
  err : Option Misuse
  dtorErr : Option Misuse
  events : List Event
deriving DecidableEq

/-- Release, epSmartObject.h lines 106-126: Lock (undefined on a NULL
lock pointer), decrement m_refCount. If it reached 0: increment it
back to 1 (the dummy addition paired with the decrement of the
destructor), Unlock, then EP_DELETE this, which runs the destructor and
frees the object. If it went below 0: signal NegativeReferenceCount
carrying the illegal value, then Unlock and return with the object kept
alive (the signaling macro, modelled from the spec, records the error
and control continues to the Unlock). Otherwise Unlock and return. -/
def Release (s : SmartObject) : Option ReleaseResult :=
  match s.m_refCounterLock with
  | none => none
  | some _ =>
      let c := s.m_refCount - 1
      if c = 0 then
        match destructor { s with m_refCount := c + 1 } with
        | none => none
        | some d =>
            some { obj := none, destroyed := true, err := none, dtorErr := d.err,
                   events := [Event.lockEv, Event.unlockEv, Event.deleteThisEv] ++ d.events }
      else if c < 0 then
        some { obj := some { s with m_refCount := c }, destroyed := false,
               err := some (Misuse.NegativeReferenceCount c), dtorErr := none,
               events := [Event.lockEv, Event.signalEv (Misuse.NegativeReferenceCount c),
                          Event.unlockEv] }
      else
        some { obj := some { s with m_refCount := c }, destroyed := false,
               err := none, dtorErr := none,
               events := [Event.lockEv, Event.unlockEv] }

/-- Retain, epSmartObject.h lines 95-100: a scoped LockObj guard around
the increment of m_refCount. The LockObj class is from a header outside
the sources; it is modelled per the spec lock capability as acquiring
the counter lock on entry and releasing it on scope exit, undefined on
a NULL lock pointer. -/
def Retain (s : SmartObject) : Option (SmartObject × List Event) :=
  match s.m_refCounterLock with
  | none => none
  | some _ =>
      some ({ s with m_refCount := s.m_refCount + 1 },
            [Event.lockEv, Event.unlockEv])

/-- Modelled from the spec: the body of SmartObject::operator= is not
part of the sources (the header at line 58 only declares it). Per the
spec it copies no base fields and returns a reference to this, so both
operands come back unchanged. -/
def assign (self source : SmartObject) : SmartObject × SmartObject :=
  (self, source)

/-- The client-visible operations of a run. -/
inductive Op where
  | retain
  | release
deriving DecidableEq

/-- A run state: the object is live with a given state, or it has been
destroyed. -/
inductive RunState where
  | live (s : SmartObject)
  | destroyed
deriving DecidableEq

/-- One client call. Calling into a destroyed object is a use after
free, hence undefined (none), as is any NULL-lock dereference inside
the call. A defined step returns the new run state and the misuse
errors signaled during the call. -/
def step (st : RunState) (op : Op) : Option (RunState × List Misuse) :=
  match st with
  | .destroyed => none
  | .live s =>
      match op with
      | .retain =>
          match Retain s with
          | none => none
          | some (s2, _) => some (.live s2, [])
      | .release =>
          match Release s with
          | none => none
          | some r =>
              match r.obj with
              | some s2 => some (.live s2, r.err.toList)
              | none => some (.destroyed, r.err.toList ++ r.dtorErr.toList)

/-- Run a list of client calls, collecting every misuse error signaled
along the way; undefined as soon as one step is undefined. -/
def runOps (st : RunState) (ops : List Op) : Option (RunState × List Misuse) :=
  match ops with
  | [] => some (st, [])
  | op :: rest =>
      (step st op).bind fun p =>
        (runOps p.1 rest).map fun q => (q.1, p.2 ++ q.2)

/-- Number of retain calls in a list of operations. -/
def countRetains : List Op → Nat
  | [] => 0
  | .retain :: rest => countRetains rest + 1
  | .release :: rest => countRetains rest

/-- Number of release calls in a list of operations. -/
def countReleases : List Op → Nat
  | [] => 0
  | .retain :: rest => countReleases rest
  | .release :: rest => countReleases rest + 1

/-- A freshly constructed object with the no-op lock policy, used as
the concrete instance of claims about runs. -/
def freshNoLockObj : SmartObject := (construct .LOCK_POLICY_NONE ⟨0⟩).1

/-- Whether a NegativeReferenceCount error occurs in a signal list. -/
def negSignaled (ms : List Misuse) : Bool :=
  ms.any fun m =>
    match m with
    | .NegativeReferenceCount _ => true
    | .NonZeroCountAtDestruction _ => false

/-- The operation list of the over-release scenario: r retains followed
by r + 2 releases, one release more than the r + 1 owning references. -/
def overReleaseOps (r : Nat) : List Op :=
  List.replicate r Op.retain ++ List.replicate (r + 2) Op.release

/-- The over-release scenario as the claim states it: the run of r
retains then r + 2 releases from a fresh object is defined (no crash)
and signals a NegativeReferenceCount error. -/
def overReleaseSignalsNegative (r : Nat) : Prop :=
  ∃ st ms, runOps (.live freshNoLockObj) (overReleaseOps r) = some (st, ms) ∧
    negSignaled ms = true

/-- Helper: Release on a live object whose count is exactly 1 runs the
whole zero-crossing path: decrement to 0, dummy increment, Unlock,
EP_DELETE this, whose destructor decrements 1 back to 0 and therefore
signals nothing. -/
theorem Release_count_one {s : SmartObject} {l : LockRef}
    (hl : s.m_refCounterLock = some l) (hc : s.m_refCount = 1) :
    Release s = some ⟨none, true, none, none,
      [Event.lockEv, Event.unlockEv, Event.deleteThisEv,
       Event.lockEv, Event.unlockEv, Event.deleteLockEv]⟩ := by
  simp [Release, destructor, hl, hc]

/-- Helper: Release on a live object whose count is at least 2 takes
the normal path: decrement, Unlock, no error, no destruction. -/
theorem Release_count_ge_two {s : SmartObject} {l : LockRef}
    (hl : s.m_refCounterLock = some l) (hc : 1 < s.m_refCount) :
    Release s = some ⟨some { s with m_refCount := s.m_refCount - 1 },
      false, none, none, [Event.lockEv, Event.unlockEv]⟩ := by
  have h1 : ¬(s.m_refCount - 1 = 0) := by omega
  have h2 : ¬(s.m_refCount - 1 < 0) := by omega
  simp [Release, hl, h1, h2]

/-- C1: on a live object with count 1, Release destroys the object
within that same call, with the Unlock of the counter lock (second
event) strictly before the EP_DELETE of this (third event) and exactly
one destruction in the trace; a Release on a larger count does not
destroy, and once the object is destroyed no further call is defined,
so no other Release can destroy it. -/
theorem release_zero_crossing_destroys_once :
    (∀ (s : SmartObject) (l : LockRef), s.m_refCounterLock = some l → s.m_refCount = 1 →
      ∃ r, Release s = some r ∧ r.destroyed = true ∧ r.obj = none ∧ r.err = none ∧
        r.events = [Event.lockEv, Event.unlockEv, Event.deleteThisEv,
                    Event.lockEv, Event.unlockEv, Event.deleteLockEv] ∧
        r.events.count Event.deleteThisEv = 1 ∧
        r.events.indexOf Event.unlockEv < r.events.indexOf Event.deleteThisEv) ∧
    (∀ (s : SmartObject) (l : LockRef), s.m_refCounterLock = some l → 1 < s.m_refCount →
      ∃ r, Release s = some r ∧ r.destroyed = false ∧ r.obj ≠ none) ∧
    (∀ o, step RunState.destroyed o = none) := by
  refine ⟨?_, ?_, ?_⟩
  · intro s l hl hc
    refine ⟨_, Release_count_one hl hc, rfl, rfl, rfl, rfl, by decide, by decide⟩
  · intro s l hl hc
    refine ⟨_, Release_count_ge_two hl hc, rfl, by simp⟩
  · intro o
    rfl

/-- Witness for C1 at a freshly constructed no-op-lock object. -/
theorem release_zero_crossing_destroys_once_witness :
    ∃ r, Release freshNoLockObj = some r ∧ r.destroyed = true ∧ r.obj = none ∧
      r.err = none ∧
      r.events = [Event.lockEv, Event.unlockEv, Event.deleteThisEv,
                  Event.lockEv, Event.unlockEv, Event.deleteLockEv] ∧
      r.events.count Event.deleteThisEv = 1 ∧
      r.events.indexOf Event.unlockEv < r.events.indexOf Event.deleteThisEv :=
  release_zero_crossing_destroys_once.1 freshNoLockObj ⟨LockKind.NoLock, 0⟩ rfl rfl

/-- C2: whenever Release decrements the count below 0, it signals
NegativeReferenceCount carrying the illegal (decremented) value, keeps
the object alive at that value, and the trace ends with the Unlock, so
the lock is free when the error reaches the caller. -/
theorem release_negative_signals_and_unlocks {s : SmartObject} {l : LockRef}
    (hl : s.m_refCounterLock = some l) (hc : s.m_refCount ≤ 0) :
    Release s = some ⟨some { s with m_refCount := s.m_refCount - 1 },
      false, some (Misuse.NegativeReferenceCount (s.m_refCount - 1)), none,
      [Event.lockEv,
       Event.signalEv (Misuse.NegativeReferenceCount (s.m_refCount - 1)),
       Event.unlockEv]⟩ := by
  have h1 : ¬(s.m_refCount - 1 = 0) := by omega
  have h2 : s.m_refCount - 1 < 0 := by omega
  simp [Release, hl, h1, h2]

/-- Witness for C2 at a concrete object whose count is 0. -/
theorem release_negative_signals_and_unlocks_witness :
    Release ⟨0, some ⟨LockKind.NoLock, 0⟩, LockPolicy.LOCK_POLICY_NONE⟩ =
      some ⟨some ⟨-1, some ⟨LockKind.NoLock, 0⟩, LockPolicy.LOCK_POLICY_NONE⟩,
        false, some (Misuse.NegativeReferenceCount (-1)), none,
        [Event.lockEv,
         Event.signalEv (Misuse.NegativeReferenceCount (-1)),
         Event.unlockEv]⟩ := by
  have h := @release_negative_signals_and_unlocks
    ⟨0, some ⟨LockKind.NoLock, 0⟩, LockPolicy.LOCK_POLICY_NONE⟩
    ⟨LockKind.NoLock, 0⟩ rfl (by decide)
  simpa using h

/-- C4: the destructor acquires the lock, performs its final implicit
decrement, signals NonZeroCountAtDestruction carrying the decremented
value exactly when that value is not 0, then unlocks and deletes the
lock implementation. -/
theorem destructor_final_decrement_checks_zero {s : SmartObject} {l : LockRef}
    (hl : s.m_refCounterLock = some l) :
    (s.m_refCount = 1 →
      destructor s = some ⟨none, [Event.lockEv, Event.unlockEv, Event.deleteLockEv]⟩) ∧
    (s.m_refCount ≠ 1 →
      destructor s =
        some ⟨some (Misuse.NonZeroCountAtDestruction (s.m_refCount - 1)),
              [Event.lockEv,
               Event.signalEv (Misuse.NonZeroCountAtDestruction (s.m_refCount - 1)),
               Event.unlockEv, Event.deleteLockEv]⟩) := by
  constructor
  · intro hc
    simp [destructor, hl, hc]
  · intro hc
    have h1 : ¬(s.m_refCount - 1 = 0) := by omega
    simp [destructor, hl, h1]

/-- Witness for C4 at a concrete object destroyed directly with
count 3: the destructor signals NonZeroCountAtDestruction 2. -/
theorem destructor_final_decrement_checks_zero_witness :
    destructor ⟨3, some ⟨LockKind.MutexLock, 0⟩, LockPolicy.LOCK_POLICY_MUTEX⟩ =
      some ⟨some (Misuse.NonZeroCountAtDestruction 2),
            [Event.lockEv, Event.signalEv (Misuse.NonZeroCountAtDestruction 2),
             Event.unlockEv, Event.deleteLockEv]⟩ := by
  have h := (@destructor_final_decrement_checks_zero
    ⟨3, some ⟨LockKind.MutexLock, 0⟩, LockPolicy.LOCK_POLICY_MUTEX⟩
    ⟨LockKind.MutexLock, 0⟩ rfl).2 (by decide)
  simpa using h

/-- C10: on the zero-crossing path Release hands the destructor the
state with the count incremented back to 1, so the final decrement of
the destructor observes exactly 0 and signals nothing; the whole
Release trace of that call contains no error signal. -/
theorem zero_crossing_dummy_increment_silences_dtor {s : SmartObject} {l : LockRef}
    (hl : s.m_refCounterLock = some l) (hc : s.m_refCount = 1) :
    destructor { s with m_refCount := (s.m_refCount - 1) + 1 } =
      some ⟨none, [Event.lockEv, Event.unlockEv, Event.deleteLockEv]⟩ ∧
    ∃ r, Release s = some r ∧ r.destroyed = true ∧ r.dtorErr = none ∧
      ∀ m, Event.signalEv m ∉ r.events := by
  constructor
  · simp [destructor, hl, hc]
  · refine ⟨_, Release_count_one hl hc, rfl, rfl, ?_⟩
    intro m
    simp

/-- Helper: the reference count of a constructed object is 1. -/
theorem construct_refCount (p : LockPolicy) (h : Heap) :
    (construct p h).1.m_refCount = 1 := by
  cases p <;> rfl

/-- Helper: the lock policy of a constructed object is the one given. -/
theorem construct_lockPolicy (p : LockPolicy) (h : Heap) :
    (construct p h).1.m_lockPolicy = p := by
  cases p <;> rfl

/-- Helper: for the three recognized policies the constructor allocates
a lock at the next fresh heap id. -/
theorem construct_lock_of_recognized (p : LockPolicy) (h : Heap)
    (hp : p ≠ LockPolicy.LOCK_POLICY_UNRECOGNIZED) :
    ∃ k, (construct p h).1.m_refCounterLock = some ⟨k, h.nextLockId⟩ := by
  cases p with
  | LOCK_POLICY_CRITICALSECTION => exact ⟨LockKind.CriticalSectionEx, rfl⟩
  | LOCK_POLICY_MUTEX => exact ⟨LockKind.MutexLock, rfl⟩
  | LOCK_POLICY_NONE => exact ⟨LockKind.NoLock, rfl⟩
  | LOCK_POLICY_UNRECOGNIZED => exact absurd rfl hp

/-- Helper: splitting a run at a list append. -/
theorem runOps_append (l1 l2 : List Op) : ∀ st,
    runOps st (l1 ++ l2) =
      (runOps st l1).bind fun p =>
        (runOps p.1 l2).map fun q => (q.1, p.2 ++ q.2) := by
  induction l1 with
  | nil =>
      intro st
      simp [runOps]
  | cons o rest ih =>
      intro st
      simp only [List.cons_append, runOps]
      cases hs : step st o with
      | none => simp
      | some p =>
          simp only [Option.some_bind, List.append_eq]
          rw [ih p.1]
          cases hr : runOps p.1 rest with
          | none => simp
          | some q =>
              cases hq : runOps q.1 l2 with
              | none => simp [hq]
              | some w => simp [hq, List.append_assoc]

/-- Helper: a run from the destroyed state is defined only for the
empty call list, and then changes nothing. -/
theorem runOps_destroyed_inv (ops : List Op) (st : RunState) (ms : List Misuse)
    (h : runOps RunState.destroyed ops = some (st, ms)) :
    ops = [] ∧ st = RunState.destroyed ∧ ms = [] := by
  cases ops with
  | nil =>
      simp [runOps] at h
      exact ⟨rfl, h.1.symm, h.2⟩
  | cons o rest =>
      simp [runOps, step] at h

/-- Helper: a sequence of r Retain calls on a live object with a lock
adds r to the count and signals nothing. -/
theorem runOps_retains (r : Nat) : ∀ (s : SmartObject) (l : LockRef),
    s.m_refCounterLock = some l →
    runOps (RunState.live s) (List.replicate r Op.retain) =
      some (RunState.live { s with m_refCount := s.m_refCount + r }, []) := by
  induction r with
  | zero =>
      intro s l hl
      simp [runOps]
  | succ n ih =>
      intro s l hl
      have hstep : step (RunState.live s) Op.retain =
          some (RunState.live { s with m_refCount := s.m_refCount + 1 }, []) := by
        simp [step, Retain, hl]
      rw [List.replicate_succ]
      rw [runOps, hstep]
      have hl2 : ({ s with m_refCount := s.m_refCount + 1 } : SmartObject).m_refCounterLock
          = some l := hl
      simp only [Option.some_bind]
      rw [ih { s with m_refCount := s.m_refCount + 1 } l hl2]
      have harith : s.m_refCount + 1 + (n : Int) = s.m_refCount + ((n + 1 : Nat) : Int) := by
        push_cast
        ring
      simp [harith]

/-- Helper: k Release calls on a live object whose count exceeds k keep
it live, subtract k, and signal nothing. -/
theorem runOps_releases_live (k : Nat) : ∀ (s : SmartObject) (l : LockRef),
    s.m_refCounterLock = some l → (k : Int) < s.m_refCount →
    runOps (RunState.live s) (List.replicate k Op.release) =
      some (RunState.live { s with m_refCount := s.m_refCount - k }, []) := by
  induction k with
  | zero =>
      intro s l hl hk
      simp [runOps]
  | succ n ih =>
      intro s l hl hk
      have hge : 1 < s.m_refCount := by omega
      have hstep : step (RunState.live s) Op.release =
          some (RunState.live { s with m_refCount := s.m_refCount - 1 }, []) := by
        simp [step, Release_count_ge_two hl hge]
      rw [List.replicate_succ]
      rw [runOps, hstep]
      have hl2 : ({ s with m_refCount := s.m_refCount - 1 } : SmartObject).m_refCounterLock
          = some l := hl
      have hk2 : (n : Int) < ({ s with m_refCount := s.m_refCount - 1 } :
          SmartObject).m_refCount := by
        show (n : Int) < s.m_refCount - 1
        omega
      simp only [Option.some_bind]
      rw [ih { s with m_refCount := s.m_refCount - 1 } l hl2 hk2]
      have harith : s.m_refCount - 1 - (n : Int) = s.m_refCount - ((n + 1 : Nat) : Int) := by
        push_cast
        ring
      simp [harith]

/-- Helper: one Release on a live object with count 1 destroys it,
with no misuse error signaled. -/
theorem runOps_release_one {s : SmartObject} {l : LockRef}
    (hl : s.m_refCounterLock = some l) (hc : s.m_refCount = 1) :
    runOps (RunState.live s) [Op.release] = some (RunState.destroyed, []) := by
  simp [runOps, step, Release_count_one hl hc]

/-- Witness for C10 at a freshly constructed mutex-lock object. -/
theorem zero_crossing_dummy_increment_silences_dtor_witness :
    destructor { (construct LockPolicy.LOCK_POLICY_MUTEX ⟨0⟩).1 with
                 m_refCount := ((construct LockPolicy.LOCK_POLICY_MUTEX ⟨0⟩).1.m_refCount - 1) + 1 } =
      some ⟨none, [Event.lockEv, Event.unlockEv, Event.deleteLockEv]⟩ ∧
    ∃ r, Release (construct LockPolicy.LOCK_POLICY_MUTEX ⟨0⟩).1 = some r ∧
      r.destroyed = true ∧ r.dtorErr = none ∧
      ∀ m, Event.signalEv m ∉ r.events :=
  @zero_crossing_dummy_increment_silences_dtor
    (construct LockPolicy.LOCK_POLICY_MUTEX ⟨0⟩).1
    ⟨LockKind.MutexLock, 0⟩ rfl rfl

/-- Helper: n Retain calls then n Release calls on a live locked
object with positive count return it exactly to its starting state,
with nothing signaled. -/
theorem balanced_run (n : Nat) (s : SmartObject) (l : LockRef)
    (hl : s.m_refCounterLock = some l) (hc : 0 < s.m_refCount) :
    runOps (RunState.live s)
      (List.replicate n Op.retain ++ List.replicate n Op.release) =
      some (RunState.live s, []) := by
  rw [runOps_append, runOps_retains n s l hl]
  simp only [Option.some_bind]
  have hl2 : ({ s with m_refCount := s.m_refCount + n } : SmartObject).m_refCounterLock
      = some l := hl
  have hk : (n : Int) < ({ s with m_refCount := s.m_refCount + n } :
      SmartObject).m_refCount := by
    show (n : Int) < s.m_refCount + n
    omega
  rw [runOps_releases_live n _ l hl2 hk]
  have harith : s.m_refCount + (n : Int) - (n : Int) = s.m_refCount := by ring
  simp [harith]

/-- C5: for every n, n Retain calls followed by n Release calls on a
freshly constructed object leave it live in its initial state, whose
count is 1, with no destruction and nothing signaled by any of the
2n calls. -/
theorem balanced_retain_release_count_one (n : Nat) (p : LockPolicy) (h : Heap)
    (hp : p ≠ LockPolicy.LOCK_POLICY_UNRECOGNIZED) :
    runOps (RunState.live (construct p h).1)
      (List.replicate n Op.retain ++ List.replicate n Op.release) =
      some (RunState.live (construct p h).1, []) ∧
    (construct p h).1.m_refCount = 1 := by
  obtain ⟨k, hk⟩ := construct_lock_of_recognized p h hp
  refine ⟨balanced_run n _ ⟨k, h.nextLockId⟩ hk ?_, construct_refCount p h⟩
  rw [construct_refCount p h]
  omega

/-- Witness for C5 with three Retains and three Releases on a fresh
no-op-lock object. -/
theorem balanced_retain_release_count_one_witness :
    runOps (RunState.live (construct LockPolicy.LOCK_POLICY_NONE ⟨0⟩).1)
      (List.replicate 3 Op.retain ++ List.replicate 3 Op.release) =
      some (RunState.live (construct LockPolicy.LOCK_POLICY_NONE ⟨0⟩).1, []) ∧
    (construct LockPolicy.LOCK_POLICY_NONE ⟨0⟩).1.m_refCount = 1 :=
  balanced_retain_release_count_one 3 LockPolicy.LOCK_POLICY_NONE ⟨0⟩ (by decide)

/-- Helper: a run that starts live with a lock and count at least 1
and ends live has executed every call normally: the final count is the
initial one plus the retains minus the releases, still at least 1, no
misuse error was signaled, and the lock and policy are untouched. -/
theorem runOps_live_spec (ops : List Op) : ∀ (s : SmartObject) (l : LockRef),
    s.m_refCounterLock = some l → 1 ≤ s.m_refCount →
    ∀ (t : SmartObject) (ms : List Misuse),
      runOps (RunState.live s) ops = some (RunState.live t, ms) →
      t.m_refCount = s.m_refCount + countRetains ops - countReleases ops ∧
      1 ≤ t.m_refCount ∧ ms = [] ∧ t.m_refCounterLock = some l ∧
      t.m_lockPolicy = s.m_lockPolicy := by
  induction ops with
  | nil =>
      intro s l hl hc t ms h
      simp only [runOps, Option.some.injEq, Prod.mk.injEq] at h
      obtain ⟨h1, h2⟩ := h
      cases h1
      exact ⟨by simp [countRetains, countReleases], hc, h2.symm, hl, rfl⟩
  | cons o rest ih =>
      intro s l hl hc t ms h
      cases o with
      | retain =>
          have hstep : step (RunState.live s) Op.retain =
              some (RunState.live { s with m_refCount := s.m_refCount + 1 }, []) := by
            simp [step, Retain, hl]
          rw [runOps, hstep] at h
          simp only [Option.some_bind] at h
          cases hr : runOps (RunState.live { s with m_refCount := s.m_refCount + 1 })
              rest with
          | none => rw [hr] at h; simp at h
          | some q =>
              obtain ⟨st2, ms2⟩ := q
              rw [hr] at h
              simp only [Option.map_some', Option.some.injEq, Prod.mk.injEq,
                List.nil_append] at h
              obtain ⟨h1, h2⟩ := h
              subst h1
              obtain ⟨c1, c2, c3, c4, c5⟩ :=
                ih { s with m_refCount := s.m_refCount + 1 } l hl
                  (by show 1 ≤ s.m_refCount + 1; omega) t ms2 hr
              have c1a : t.m_refCount = s.m_refCount + 1 + countRetains rest
                  - countReleases rest := c1
              refine ⟨?_, c2, by rw [← h2, c3], c4, c5⟩
              simp only [countRetains, countReleases]
              omega
      | release =>
          by_cases hone : s.m_refCount = 1
          · have hstep : step (RunState.live s) Op.release =
                some (RunState.destroyed, []) := by
              simp [step, Release_count_one hl hone]
            rw [runOps, hstep] at h
            simp only [Option.some_bind] at h
            cases hr : runOps RunState.destroyed rest with
            | none => rw [hr] at h; simp at h
            | some q =>
                obtain ⟨st2, ms2⟩ := q
                obtain ⟨-, hd, -⟩ := runOps_destroyed_inv rest st2 ms2 hr
                subst hd
                rw [hr] at h
                simp at h
          · have hge : 1 < s.m_refCount := by omega
            have hstep : step (RunState.live s) Op.release =
                some (RunState.live { s with m_refCount := s.m_refCount - 1 }, []) := by
              simp [step, Release_count_ge_two hl hge]
            rw [runOps, hstep] at h
            simp only [Option.some_bind] at h
            cases hr : runOps (RunState.live { s with m_refCount := s.m_refCount - 1 })
                rest with
            | none => rw [hr] at h; simp at h
            | some q =>
                obtain ⟨st2, ms2⟩ := q
                rw [hr] at h
                simp only [Option.map_some', Option.some.injEq, Prod.mk.injEq,
                  List.nil_append] at h
                obtain ⟨h1, h2⟩ := h
                subst h1
                obtain ⟨c1, c2, c3, c4, c5⟩ :=
                  ih { s with m_refCount := s.m_refCount - 1 } l hl
                    (by show 1 ≤ s.m_refCount - 1; omega) t ms2 hr
                have c1a : t.m_refCount = s.m_refCount - 1 + countRetains rest
                    - countReleases rest := c1
                refine ⟨?_, c2, by rw [← h2, c3], c4, c5⟩
                simp only [countRetains, countReleases]
                omega

/-- C9: along every defined run of Retain and Release calls from a
freshly constructed object that leaves the object alive, the count
stays at least 0 (indeed at least 1) and equals 1 (the implicit
construction reference) plus the number of retains minus the number of
releases, the number of outstanding owning references. -/
theorem reachable_count_nonneg_tracks_refs (p : LockPolicy) (h : Heap)
    (ops : List Op) (t : SmartObject) (ms : List Misuse)
    (hp : p ≠ LockPolicy.LOCK_POLICY_UNRECOGNIZED)
    (hr : runOps (RunState.live (construct p h).1) ops = some (RunState.live t, ms)) :
    0 ≤ t.m_refCount ∧
    t.m_refCount = 1 + (countRetains ops : Int) - (countReleases ops : Int) := by
  obtain ⟨k, hk⟩ := construct_lock_of_recognized p h hp
  have hc : 1 ≤ (construct p h).1.m_refCount := by
    rw [construct_refCount p h]
  obtain ⟨c1, c2, -, -, -⟩ :=
    runOps_live_spec ops (construct p h).1 ⟨k, h.nextLockId⟩ hk hc t ms hr
  constructor
  · omega
  · rw [c1, construct_refCount p h]

/-- Witness for C9 on the run retain, retain, release from a fresh
no-op-lock object, ending live with count 2. -/
theorem reachable_count_nonneg_tracks_refs_witness :
    (0 : Int) ≤ (⟨2, some ⟨LockKind.NoLock, 0⟩,
      LockPolicy.LOCK_POLICY_NONE⟩ : SmartObject).m_refCount ∧
    (⟨2, some ⟨LockKind.NoLock, 0⟩,
      LockPolicy.LOCK_POLICY_NONE⟩ : SmartObject).m_refCount =
      1 + (countRetains [Op.retain, Op.retain, Op.release] : Int)
        - (countReleases [Op.retain, Op.retain, Op.release] : Int) :=
  reachable_count_nonneg_tracks_refs LockPolicy.LOCK_POLICY_NONE ⟨0⟩
    [Op.retain, Op.retain, Op.release]
    ⟨2, some ⟨LockKind.NoLock, 0⟩, LockPolicy.LOCK_POLICY_NONE⟩ []
    (by decide) (by decide)

/-- Helper: r Retains followed by r + 1 Releases drain a fresh count
of 1 completely: the last Release destroys the object and nothing is
signaled anywhere in the run. -/
theorem drain_releases (s : SmartObject) (l : LockRef) (r : Nat)
    (hl : s.m_refCounterLock = some l) (hc : s.m_refCount = 1) :
    runOps (RunState.live s)
      (List.replicate r Op.retain ++ List.replicate (r + 1) Op.release) =
      some (RunState.destroyed, []) := by
  rw [runOps_append, runOps_retains r s l hl]
  simp only [Option.some_bind]
  rw [List.replicate_succ' r Op.release, runOps_append]
  have hl2 : ({ s with m_refCount := s.m_refCount + r } : SmartObject).m_refCounterLock
      = some l := hl
  have hk2 : (r : Int) < ({ s with m_refCount := s.m_refCount + r } :
      SmartObject).m_refCount := by
    show (r : Int) < s.m_refCount + r
    omega
  rw [runOps_releases_live r _ l hl2 hk2]
  simp only [Option.some_bind]
  have hl3 : ({ s with m_refCount := s.m_refCount + r - r } :
      SmartObject).m_refCounterLock = some l := hl
  have hone : ({ s with m_refCount := s.m_refCount + r - r } :
      SmartObject).m_refCount = 1 := by
    show s.m_refCount + r - r = 1
    omega
  rw [runOps_release_one hl3 hone]
  simp

/-- C3 amended: with r prior Retains (r + 1 owning references), the
(r + 1)-th Release is the call that destroys the object, with no
misuse error signaled by any call; the (r + 2)-th Release, the one
exceeding the owning references, acts on an already-destroyed object,
which is undefined behavior: in particular it does not signal
NegativeReferenceCount. -/
theorem over_release_use_after_free (r : Nat) (p : LockPolicy) (h : Heap)
    (hp : p ≠ LockPolicy.LOCK_POLICY_UNRECOGNIZED) :
    runOps (RunState.live (construct p h).1)
      (List.replicate r Op.retain ++ List.replicate (r + 1) Op.release) =
      some (RunState.destroyed, []) ∧
    runOps (RunState.live (construct p h).1)
      (List.replicate r Op.retain ++ List.replicate (r + 2) Op.release) = none := by
  obtain ⟨k, hk⟩ := construct_lock_of_recognized p h hp
  have hc : (construct p h).1.m_refCount = 1 := construct_refCount p h
  have h1 := drain_releases (construct p h).1 ⟨k, h.nextLockId⟩ r hk hc
  refine ⟨h1, ?_⟩
  have hsplit : List.replicate r Op.retain ++ List.replicate (r + 2) Op.release
      = (List.replicate r Op.retain ++ List.replicate (r + 1) Op.release)
        ++ [Op.release] := by
    rw [List.append_assoc, ← List.replicate_succ' (r + 1) Op.release]
  rw [hsplit, runOps_append, h1]
  simp [runOps, step]

/-- Witness for the amended C3 with one Retain: the second Release
destroys, the third is undefined. -/
theorem over_release_use_after_free_witness :
    runOps (RunState.live (construct LockPolicy.LOCK_POLICY_NONE ⟨0⟩).1)
      (List.replicate 1 Op.retain ++ List.replicate 2 Op.release) =
      some (RunState.destroyed, []) ∧
    runOps (RunState.live (construct LockPolicy.LOCK_POLICY_NONE ⟨0⟩).1)
      (List.replicate 1 Op.retain ++ List.replicate 3 Op.release) = none :=
  over_release_use_after_free 1 LockPolicy.LOCK_POLICY_NONE ⟨0⟩ (by decide)

/-- C3 counterexample: with zero Retains, the run of two Releases (one
more than the single construction reference) is undefined because the
first Release already destroyed the object; it does not signal
NegativeReferenceCount, contradicting the claim that the crossing call
signals it. -/
theorem over_release_signals_negative_cex :
    runOps (RunState.live freshNoLockObj) (overReleaseOps 0) = none ∧
    ¬ overReleaseSignalsNegative 0 := by
  have h0 : runOps (RunState.live freshNoLockObj) (overReleaseOps 0) = none := by
    decide
  refine ⟨h0, ?_⟩
  rintro ⟨st, ms, hrun, -⟩
  rw [h0] at hrun
  exact Option.noConfusion hrun

/-- C6: a copy-constructed object starts with count 1 whatever the
count of the source is, copies the lock policy of the source, and owns
a lock freshly allocated at the next heap id, distinct from the lock
of the source. -/
theorem copy_construct_fresh_count_and_lock (b : SmartObject) (h : Heap)
    (r : LockRef) (hb : b.m_refCounterLock = some r)
    (hp : b.m_lockPolicy ≠ LockPolicy.LOCK_POLICY_UNRECOGNIZED)
    (hid : r.id < h.nextLockId) :
    (copyConstruct b h).1.m_refCount = 1 ∧
    (copyConstruct b h).1.m_lockPolicy = b.m_lockPolicy ∧
    ∃ u, (copyConstruct b h).1.m_refCounterLock = some u ∧
      u.id = h.nextLockId ∧ u ≠ r := by
  obtain ⟨cnt, lk, pol⟩ := b
  cases pol with
  | LOCK_POLICY_CRITICALSECTION =>
      refine ⟨rfl, rfl, ⟨LockKind.CriticalSectionEx, h.nextLockId⟩, rfl, rfl, ?_⟩
      intro he
      have hre : r.id = h.nextLockId := by rw [← he]
      omega
  | LOCK_POLICY_MUTEX =>
      refine ⟨rfl, rfl, ⟨LockKind.MutexLock, h.nextLockId⟩, rfl, rfl, ?_⟩
      intro he
      have hre : r.id = h.nextLockId := by rw [← he]
      omega
  | LOCK_POLICY_NONE =>
      refine ⟨rfl, rfl, ⟨LockKind.NoLock, h.nextLockId⟩, rfl, rfl, ?_⟩
      intro he
      have hre : r.id = h.nextLockId := by rw [← he]
      omega
  | LOCK_POLICY_UNRECOGNIZED => exact absurd rfl hp

/-- Witness for C6: copying an object whose lock has id 0, from a heap
whose next id is 1, yields count 1 and a lock with id 1. -/
theorem copy_construct_fresh_count_and_lock_witness :
    (copyConstruct ⟨5, some ⟨LockKind.CriticalSectionEx, 0⟩,
        LockPolicy.LOCK_POLICY_CRITICALSECTION⟩ ⟨1⟩).1.m_refCount = 1 ∧
    (copyConstruct ⟨5, some ⟨LockKind.CriticalSectionEx, 0⟩,
        LockPolicy.LOCK_POLICY_CRITICALSECTION⟩ ⟨1⟩).1.m_lockPolicy =
      (⟨5, some ⟨LockKind.CriticalSectionEx, 0⟩,
        LockPolicy.LOCK_POLICY_CRITICALSECTION⟩ : SmartObject).m_lockPolicy ∧
    ∃ u, (copyConstruct ⟨5, some ⟨LockKind.CriticalSectionEx, 0⟩,
        LockPolicy.LOCK_POLICY_CRITICALSECTION⟩ ⟨1⟩).1.m_refCounterLock = some u ∧
      u.id = (⟨1⟩ : Heap).nextLockId ∧ u ≠ ⟨LockKind.CriticalSectionEx, 0⟩ :=
  copy_construct_fresh_count_and_lock
    ⟨5, some ⟨LockKind.CriticalSectionEx, 0⟩, LockPolicy.LOCK_POLICY_CRITICALSECTION⟩
    ⟨1⟩ ⟨LockKind.CriticalSectionEx, 0⟩ rfl (by decide) (by decide)

/-- C7: assignment returns self and leaves count, lock and lock policy
of both operands exactly as they were. -/
theorem assign_returns_self_preserves_counts (o q : SmartObject) :
    assign o q = (o, q) ∧
    (assign o q).1.m_refCount = o.m_refCount ∧
    (assign o q).2.m_refCount = q.m_refCount ∧
    (assign o q).1.m_refCounterLock = o.m_refCounterLock ∧
    (assign o q).2.m_refCounterLock = q.m_refCounterLock ∧
    (assign o q).1.m_lockPolicy = o.m_lockPolicy ∧
    (assign o q).2.m_lockPolicy = q.m_lockPolicy :=
  ⟨rfl, rfl, rfl, rfl, rfl, rfl, rfl⟩

/-- Witness for C7: with counts 1 and 3, both counts survive the
assignment unchanged. -/
theorem assign_returns_self_preserves_counts_witness :
    (assign ⟨1, some ⟨LockKind.NoLock, 0⟩, LockPolicy.LOCK_POLICY_NONE⟩
      ⟨3, some ⟨LockKind.NoLock, 1⟩, LockPolicy.LOCK_POLICY_NONE⟩).1.m_refCount = 1 ∧
    (assign ⟨1, some ⟨LockKind.NoLock, 0⟩, LockPolicy.LOCK_POLICY_NONE⟩
      ⟨3, some ⟨LockKind.NoLock, 1⟩, LockPolicy.LOCK_POLICY_NONE⟩).2.m_refCount = 3 := by
  have h := assign_returns_self_preserves_counts
    ⟨1, some ⟨LockKind.NoLock, 0⟩, LockPolicy.LOCK_POLICY_NONE⟩
    ⟨3, some ⟨LockKind.NoLock, 1⟩, LockPolicy.LOCK_POLICY_NONE⟩
  exact ⟨h.2.1, h.2.2.1⟩

/-- C8: construction sets count to 1 and stores the policy for every
policy value; for each of the three recognized policies it allocates
the matching lock implementation, and an unrecognized value leaves the
lock pointer NULL, so the very next counter operation (Retain, Release
or the destructor) dereferences NULL and is undefined: the
misconfiguration fails fast at first use. -/
theorem construct_count_policy_lock (p : LockPolicy) (h : Heap) :
    (construct p h).1.m_refCount = 1 ∧
    (construct p h).1.m_lockPolicy = p ∧
    (p = LockPolicy.LOCK_POLICY_CRITICALSECTION →
      (construct p h).1.m_refCounterLock =
        some ⟨LockKind.CriticalSectionEx, h.nextLockId⟩) ∧
    (p = LockPolicy.LOCK_POLICY_MUTEX →
      (construct p h).1.m_refCounterLock = some ⟨LockKind.MutexLock, h.nextLockId⟩) ∧
    (p = LockPolicy.LOCK_POLICY_NONE →
      (construct p h).1.m_refCounterLock = some ⟨LockKind.NoLock, h.nextLockId⟩) ∧
    (p = LockPolicy.LOCK_POLICY_UNRECOGNIZED →
      (construct p h).1.m_refCounterLock = none ∧
      Retain (construct p h).1 = none ∧
      Release (construct p h).1 = none ∧
      destructor (construct p h).1 = none) := by
  cases p <;>
    refine ⟨rfl, rfl, ?_, ?_, ?_, ?_⟩ <;>
    intro hp <;>
    first
      | exact rfl
      | exact absurd hp (by decide)
      | exact ⟨rfl, rfl, rfl, rfl⟩

/-- Witness for C8 at the unrecognized policy value: construction
still yields count 1, but the lock is NULL and Release is undefined. -/
theorem construct_count_policy_lock_witness :
    (construct LockPolicy.LOCK_POLICY_UNRECOGNIZED ⟨0⟩).1.m_refCount = 1 ∧
    (construct LockPolicy.LOCK_POLICY_UNRECOGNIZED ⟨0⟩).1.m_refCounterLock = none ∧
    Release (construct LockPolicy.LOCK_POLICY_UNRECOGNIZED ⟨0⟩).1 = none := by
  have h := construct_count_policy_lock LockPolicy.LOCK_POLICY_UNRECOGNIZED ⟨0⟩
  exact ⟨h.1, (h.2.2.2.2.2 rfl).1, (h.2.2.2.2.2 rfl).2.2.1⟩

end epl
